import Mathlib

/-!
Shallow embedding of the Binance futures aggressive-flow monitor
(`src/unnamed/part_000`, the MVP Enhanced version, whose structure matches
the specification).  JavaScript numbers are modelled as rationals, millisecond
timestamps as rationals, JS maps as association lists, and wall-clock reads
(`Date.now()`, fetched prices) as explicit parameters.
-/

namespace FlowMonitor

/-- A stored trade record: `SymbolState.addTrade` builds
\x7b timestamp, price, buyVol, sellVol \x7d. -/
structure Trade where
  timestamp : ℚ
  price : ℚ
  buyVol : ℚ
  sellVol : ℚ
deriving Repr, DecidableEq

/-- Per-instrument rolling-window state (`class SymbolState`). -/
structure SymbolState where
  windowMs : ℚ
  trades : List Trade
  firstPrice : Option ℚ
  lastPrice : Option ℚ
  highPrice : Option ℚ
  lowPrice : Option ℚ
deriving Repr, DecidableEq

/-- Fresh state, as built by the `SymbolState` constructor. -/
def SymbolState.init (windowMs : ℚ) : SymbolState :=
  ⟨windowMs, [], none, none, none, none⟩

/-- `Math.max(...trades.map(t => t.price))` over a nonempty list `t :: ts`. -/
def maxPrice (t : Trade) (ts : List Trade) : ℚ :=
  ts.foldl (fun a x => max a x.price) t.price

/-- `Math.min(...trades.map(t => t.price))` over a nonempty list `t :: ts`. -/
def minPrice (t : Trade) (ts : List Trade) : ℚ :=
  ts.foldl (fun a x => min a x.price) t.price

/-- `SymbolState.cleanup(currentTime)`: evict trades with
`timestamp < currentTime - windowMs`, then recompute first/high/low price
from the survivors (`lastPrice` is left untouched, as in the source). -/
def SymbolState.cleanup (s : SymbolState) (currentTime : ℚ) : SymbolState :=
  let cutoff := currentTime - s.windowMs
  match s.trades.filter (fun t => cutoff ≤ t.timestamp) with
  | [] => { s with trades := [], firstPrice := none, highPrice := none, lowPrice := none }
  | t :: ts =>
      { s with trades := t :: ts,
               firstPrice := some t.price,
               highPrice := some (maxPrice t ts),
               lowPrice := some (minPrice t ts) }

/-- `SymbolState.addTrade(timestamp, price, quantity, isBuyerMaker)`:
classify the notional volume, append the trade, update the price extremes,
then run `cleanup` keyed to this trade timestamp (not the wall clock). -/
def SymbolState.addTrade (s : SymbolState) (timestamp price quantity : ℚ)
    (isBuyerMaker : Bool) : SymbolState :=
  let volume := price * quantity
  let trade : Trade :=
    ⟨timestamp, price,
     if isBuyerMaker then 0 else volume,
     if isBuyerMaker then volume else 0⟩
  let s1 := { s with trades := s.trades ++ [trade], lastPrice := some price }
  let s2 :=
    match s.firstPrice with
    | none => { s1 with firstPrice := some price, highPrice := some price,
                        lowPrice := some price }
    | some _ => { s1 with highPrice := s.highPrice.map (fun h => max h price),
                          lowPrice := s.lowPrice.map (fun lo => min lo price) }
  s2.cleanup timestamp

/-- `SymbolState.reset()`. -/
def SymbolState.reset (s : SymbolState) : SymbolState :=
  { s with trades := [], firstPrice := none, lastPrice := none,
           highPrice := none, lowPrice := none }

/-- The Window Snapshot returned by `SymbolState.getStats`. -/
structure Stats where
  buyVolume : ℚ
  sellVolume : ℚ
  totalVolume : ℚ
  dominantSide : String
  dominance : ℚ
  priceChange : ℚ
  priceRange : ℚ
  duration : ℚ
  tradeCount : Nat
  lastPrice : ℚ
deriving Repr, DecidableEq

/-- `SymbolState.getStats()`: null when no trades survive or total volume is
zero; otherwise derives buy/sell volume, dominant side, dominance, signed
price change over first/last price, price range and duration.  The JS
truthiness tests `this.firstPrice ? … : 0` and
`this.highPrice && this.lowPrice ? … : 0` (false for both `null` and `0`)
are modelled explicitly. -/
def SymbolState.getStats (s : SymbolState) : Option Stats :=
  match s.trades with
  | [] => none
  | t0 :: rest =>
    let trades := t0 :: rest
    let buyVolume := (trades.map Trade.buyVol).sum
    let sellVolume := (trades.map Trade.sellVol).sum
    let totalVolume := buyVolume + sellVolume
    if totalVolume = 0 then none
    else
      let buyDominance := (buyVolume / totalVolume) * 100
      let sellDominance := (sellVolume / totalVolume) * 100
      let dominantSide := if sellVolume < buyVolume then "buy" else "sell"
      let dominance := max buyDominance sellDominance
      let priceChange :=
        match s.firstPrice with
        | some fp =>
            if fp ≠ 0 then ((s.lastPrice.getD 0 - fp) / fp) * 100 else 0
        | none => 0
      let priceRange :=
        match s.highPrice, s.lowPrice with
        | some hp, some lp => if hp ≠ 0 ∧ lp ≠ 0 then hp - lp else 0
        | _, _ => 0
      let duration := ((rest.getLastD t0).timestamp - t0.timestamp) / 1000
      some
        { buyVolume := buyVolume
          sellVolume := sellVolume
          totalVolume := totalVolume
          dominantSide := dominantSide
          dominance := dominance
          priceChange := priceChange
          priceRange := priceRange
          duration := duration
          tradeCount := trades.length
          lastPrice := s.lastPrice.getD 0 }

/-- One inbound trade print, as decoded by `handleMessage`:
timestamp `T`, price `p`, quantity `q`, maker-sell flag `m`. -/
structure TradeInput where
  ts : ℚ
  price : ℚ
  qty : ℚ
  m : Bool
deriving Repr, DecidableEq

/-- The trade record `addTrade` stores for a given input. -/
def mkTrade (x : TradeInput) : Trade :=
  ⟨x.ts, x.price, if x.m then 0 else x.price * x.qty,
   if x.m then x.price * x.qty else 0⟩

/-- Feed one decoded message to the aggregator. -/
def stepTrade (s : SymbolState) (x : TradeInput) : SymbolState :=
  s.addTrade x.ts x.price x.qty x.m

/-- Feed a whole trade sequence, in arrival order. -/
def process (s : SymbolState) (L : List TradeInput) : SymbolState :=
  L.foldl stepTrade s

/-- The uniform `\x7b allowed, reason \x7d` result every filter returns. -/
structure CheckResult where
  allowed : Bool
  reason : String
deriving Repr, DecidableEq

/-- `CONFIG.ADVANCED_FILTERS.aggressionDecay` (all knobs runtime-mutable
through `setFilterParam`, hence numeric fields are rationals). -/
structure AggressionDecayConfig where
  enabled : Bool
  lookbackMinutes : ℚ
  decayThreshold : ℚ
  minCandles : ℚ
deriving Repr, DecidableEq

/-- One entry of `AggressionDecayFilter.aggressionHistory`. -/
structure AggressionEntry where
  timestamp : ℚ
  normalizedAggression : ℚ
deriving Repr, DecidableEq

/-- `AggressionDecayFilter.recordAggression(symbol, timestamp, buyVolume,
sellVolume, priceRange)` acting on one symbol history: skip when the
total volume is zero, else push the normalized aggression reading and evict
entries older than `timestamp - lookbackMinutes`. -/
def AggressionDecayFilter.recordAggression (cfg : AggressionDecayConfig)
    (history : List AggressionEntry) (timestamp buyVolume sellVolume priceRange : ℚ) :
    List AggressionEntry :=
  let totalVolume := buyVolume + sellVolume
  if totalVolume = 0 then history
  else
    let dominantVolume := max buyVolume sellVolume
    let normalizedAggression :=
      if 0 < priceRange then dominantVolume / priceRange else dominantVolume
    let cutoff := timestamp - cfg.lookbackMinutes * 60 * 1000
    (history ++ [(⟨timestamp, normalizedAggression⟩ : AggressionEntry)]).filter
      (fun h => cutoff ≤ h.timestamp)

/-- `AggressionDecayFilter.shouldAllowEntry(symbol, currentBuyVol,
currentSellVol, currentPriceRange)`; `history?` is `none` when the map holds
no entry for the symbol. -/
def AggressionDecayFilter.shouldAllowEntry (cfg : AggressionDecayConfig)
    (history? : Option (List AggressionEntry))
    (currentBuyVol currentSellVol currentPriceRange : ℚ) : CheckResult :=
  if ¬cfg.enabled then ⟨true, "Aggression decay filter disabled"⟩
  else
    let history := history?.getD []
    if (history.length : ℚ) < cfg.minCandles then
      ⟨true, "Insufficient aggression history"⟩
    else
      let totalVolume := currentBuyVol + currentSellVol
      if totalVolume = 0 then ⟨false, "No volume"⟩
      else
        let currentDominantVol := max currentBuyVol currentSellVol
        let currentAggression :=
          if 0 < currentPriceRange then currentDominantVol / currentPriceRange
          else currentDominantVol
        let avgHistoricalAggression :=
          (history.map AggressionEntry.normalizedAggression).sum / history.length
        let ratio :=
          if 0 < avgHistoricalAggression then currentAggression / avgHistoricalAggression
          else 1
        if ratio < cfg.decayThreshold then ⟨true, "Aggression decaying"⟩
        else ⟨false, "Aggression still high"⟩

/-- `CONFIG.ADVANCED_FILTERS.stopCluster`. -/
structure StopClusterConfig where
  enabled : Bool
  maxStops : ℚ
  timeWindowMinutes : ℚ
  pauseMinutes : ℚ
deriving Repr, DecidableEq

/-- `StopClusterProtection` instance state: stop-loss event timestamps plus
the global pause deadline. -/
structure StopClusterState where
  stopLossEvents : List ℚ
  pausedUntil : ℚ
deriving Repr, DecidableEq

/-- `StopClusterProtection.recordStopLoss(symbol)` at wall-clock `now`:
append, evict entries older than the window, and set the pause deadline when
the surviving count reaches `maxStops`. -/
def StopClusterProtection.recordStopLoss (cfg : StopClusterConfig)
    (st : StopClusterState) (now : ℚ) : StopClusterState :=
  if ¬cfg.enabled then st
  else
    let cutoff := now - cfg.timeWindowMinutes * 60 * 1000
    let events := (st.stopLossEvents ++ [now]).filter (fun e => cutoff ≤ e)
    if cfg.maxStops ≤ (events.length : ℚ) then
      { stopLossEvents := events, pausedUntil := now + cfg.pauseMinutes * 60 * 1000 }
    else
      { st with stopLossEvents := events }

/-- `StopClusterProtection.isTradingAllowed()` at wall-clock `now`. -/
def StopClusterProtection.isTradingAllowed (cfg : StopClusterConfig)
    (st : StopClusterState) (now : ℚ) : CheckResult :=
  if ¬cfg.enabled then ⟨true, "Stop cluster protection disabled"⟩
  else if now < st.pausedUntil then ⟨false, "Stop cluster pause active"⟩
  else ⟨true, "No stop cluster detected"⟩

/-- `CONFIG.ADVANCED_FILTERS.timeBased`. -/
structure TimeBasedConfig where
  enabled : Bool
  blockedDays : List Nat
  blockedHours : List Nat
  allowedHoursStart : ℚ
  allowedHoursEnd : ℚ
deriving Repr, DecidableEq

/-- `TimeBasedFilter.isTradingAllowed()`: pure function of the UTC weekday
and hour read from the wall clock, passed here explicitly. -/
def TimeBasedFilter.isTradingAllowed (cfg : TimeBasedConfig)
    (dayOfWeek hourUTC : Nat) : CheckResult :=
  if ¬cfg.enabled then ⟨true, "Time filter disabled"⟩
  else if dayOfWeek ∈ cfg.blockedDays then ⟨false, "Trading blocked on this day"⟩
  else if hourUTC ∈ cfg.blockedHours then ⟨false, "Trading blocked at this hour"⟩
  else if (hourUTC : ℚ) < cfg.allowedHoursStart ∨ cfg.allowedHoursEnd ≤ (hourUTC : ℚ) then
    ⟨false, "Outside trading hours"⟩
  else ⟨true, "Trading allowed"⟩

/-- `CONFIG.ADVANCED_FILTERS.btcVolatility`. -/
structure BTCVolConfig where
  enabled : Bool
  checkIntervalMinutes : ℚ
  timeframeMinutes : ℚ
  thresholdPercent : ℚ
  pauseMinutes : ℚ
deriving Repr, DecidableEq

/-- `BTCVolatilityFilter` instance state: trailing (timestamp, price)
history, global pause deadline, last fetched price, last alert time and the
accumulated alert count. -/
structure BTCVolState where
  btcPriceHistory : List (ℚ × ℚ)
  pausedUntil : ℚ
  lastBTCPrice : Option ℚ
  lastAlertTime : ℚ
  btcAlerts : Nat
deriving Repr, DecidableEq

/-- Fresh `BTCVolatilityFilter` state, as built by the constructor. -/
def BTCVolState.init : BTCVolState := ⟨[], 0, none, 0, 0⟩

/-- One poll of `BTCVolatilityFilter.checkBTC()`: the fetched reference
price and the wall clock are inputs; returns the new state together with
whether a BTC alert notification was emitted this poll
(`generateBTCAlert` ran). -/
def BTCVolatilityFilter.checkBTC (cfg : BTCVolConfig) (st : BTCVolState)
    (now currentPrice : ℚ) : BTCVolState × Bool :=
  if ¬cfg.enabled then (st, false)
  else
    let cutoff := now - cfg.timeframeMinutes * 60 * 1000
    let history := (st.btcPriceHistory ++ [(now, currentPrice)]).filter
      (fun h => cutoff ≤ h.1)
    let st1 := { st with lastBTCPrice := some currentPrice, btcPriceHistory := history }
    match history with
    | [] => (st1, false)
    | oldest :: restHist =>
      if 2 ≤ (oldest :: restHist).length then
        let oldestPrice := oldest.2
        let priceChange := ((currentPrice - oldestPrice) / oldestPrice) * 100
        if cfg.thresholdPercent ≤ |priceChange| ∧ st1.pausedUntil ≤ now then
          ({ st1 with pausedUntil := now + cfg.pauseMinutes * 60 * 1000,
                      lastAlertTime := now,
                      btcAlerts := st1.btcAlerts + 1 }, true)
        else (st1, false)
      else (st1, false)

/-- `BTCVolatilityFilter.isTradingAllowed()` at wall-clock `now`. -/
def BTCVolatilityFilter.isTradingAllowed (cfg : BTCVolConfig)
    (st : BTCVolState) (now : ℚ) : CheckResult :=
  if ¬cfg.enabled then ⟨true, "BTC filter disabled"⟩
  else if now < st.pausedUntil then ⟨false, "BTC volatility pause"⟩
  else ⟨true, "BTC volatility normal"⟩

/-- One per-instrument entry of `SYMBOL_CONFIGS`, runtime-mutable. -/
structure SymbolConfig where
  minVolumeUSD : ℚ
  minDominance : ℚ
  minPriceChange : ℚ
  cooldownMinutes : ℚ
  enabled : Bool
deriving Repr, DecidableEq

/-- The `\x7b allow, reason \x7d` decision `SignalEngine.shouldAlert` returns. -/
structure Decision where
  allow : Bool
  reason : String
deriving Repr, DecidableEq

/-- `SignalEngine.shouldAlert(symbol, stats)`.  `config?` is
`runtimeConfig.get(symbol)` (`none` when the symbol is unknown); the four
filter states and the wall clock are explicit parameters, and the filters
are evaluated exactly where the source calls them. -/
def SignalEngine.shouldAlert (config? : Option SymbolConfig) (stats? : Option Stats)
    (adCfg : AggressionDecayConfig) (adHistory? : Option (List AggressionEntry))
    (scCfg : StopClusterConfig) (scSt : StopClusterState)
    (tbCfg : TimeBasedConfig) (dayOfWeek hourUTC : Nat)
    (btcCfg : BTCVolConfig) (btcSt : BTCVolState)
    (now : ℚ) : Decision :=
  match stats? with
  | none => ⟨false, "No stats"⟩
  | some stats =>
    match config? with
    | none => ⟨false, "Symbol disabled"⟩
    | some config =>
      if ¬config.enabled then ⟨false, "Symbol disabled"⟩
      else if stats.totalVolume < config.minVolumeUSD then
        ⟨false, "Volume too low"⟩
      else if stats.dominance < config.minDominance then
        ⟨false, "Dominance too low"⟩
      else if |stats.priceChange| < config.minPriceChange then
        ⟨false, "Price change too small"⟩
      else if stats.dominantSide = "buy" ∧ stats.priceChange < 0 then
        ⟨false, "Buy dominance but price down"⟩
      else if stats.dominantSide = "sell" ∧ 0 < stats.priceChange then
        ⟨false, "Sell dominance but price up"⟩
      else
        let aggressionCheck := AggressionDecayFilter.shouldAllowEntry adCfg adHistory?
          stats.buyVolume stats.sellVolume stats.priceRange
        if ¬aggressionCheck.allowed then
          ⟨false, "Aggression: " ++ aggressionCheck.reason⟩
        else
          let stopCheck := StopClusterProtection.isTradingAllowed scCfg scSt now
          if ¬stopCheck.allowed then ⟨false, stopCheck.reason⟩
          else
            let timeCheck := TimeBasedFilter.isTradingAllowed tbCfg dayOfWeek hourUTC
            if ¬timeCheck.allowed then ⟨false, timeCheck.reason⟩
            else
              let btcCheck := BTCVolatilityFilter.isTradingAllowed btcCfg btcSt now
              if ¬btcCheck.allowed then ⟨false, btcCheck.reason⟩
              else ⟨true, "All filters passed"⟩

/-- Restatement of the cheap per-instrument threshold section of
`shouldAlert` (everything checked before the first stateful filter):
either the threshold denial taken, or the surviving snapshot.  Used to state
the composition claim. -/
def cheapGate (config? : Option SymbolConfig) (stats? : Option Stats) :
    Except Decision Stats :=
  match stats? with
  | none => .error ⟨false, "No stats"⟩
  | some stats =>
    match config? with
    | none => .error ⟨false, "Symbol disabled"⟩
    | some config =>
      if ¬config.enabled then .error ⟨false, "Symbol disabled"⟩
      else if stats.totalVolume < config.minVolumeUSD then
        .error ⟨false, "Volume too low"⟩
      else if stats.dominance < config.minDominance then
        .error ⟨false, "Dominance too low"⟩
      else if |stats.priceChange| < config.minPriceChange then
        .error ⟨false, "Price change too small"⟩
      else if stats.dominantSide = "buy" ∧ stats.priceChange < 0 then
        .error ⟨false, "Buy dominance but price down"⟩
      else if stats.dominantSide = "sell" ∧ 0 < stats.priceChange then
        .error ⟨false, "Sell dominance but price up"⟩
      else .ok stats

/-- Short-circuit composition of an ordered list of filter results: the
first denial wins, otherwise the evaluation allows with one reason. -/
def firstDenial : List CheckResult → Decision
  | [] => ⟨true, "All filters passed"⟩
  | c :: rest => if ¬c.allowed then ⟨false, c.reason⟩ else firstDenial rest

/-- `CooldownManager.lastAlerts`: JS `Map` from `symbol_side` key to the
last alert wall-clock time (later `set` on the same key shadows earlier
entries, so lookup takes the most recent binding). -/
def lookupKey (m : List (String × ℚ)) (key : String) : Option ℚ :=
  (m.find? (fun e => e.1 = key)).map (fun e => e.2)

/-- `CooldownManager.canAlert(symbol, stats)`_side_ at wall-clock `now`:
reads `cooldownMinutes` from the live configuration at check time; `false`
when the symbol config is missing; eligible again once
`now - lastAlert >= cooldownMinutes * 60 * 1000`. -/
def CooldownManager.canAlert (config? : Option SymbolConfig)
    (lastAlerts : List (String × ℚ)) (symbol side : String) (now : ℚ) : Bool :=
  match config? with
  | none => false
  | some config =>
    match lookupKey lastAlerts (symbol ++ "_" ++ side) with
    | none => true
    | some lastAlert => config.cooldownMinutes * 60 * 1000 ≤ now - lastAlert

/-- `CooldownManager.recordAlert(symbol, stats)`_side_: stamp `now` against
the `symbol_side` key. -/
def CooldownManager.recordAlert (lastAlerts : List (String × ℚ))
    (symbol side : String) (now : ℚ) : List (String × ℚ) :=
  (symbol ++ "_" ++ side, now) :: lastAlerts

/-- The per-symbol configuration store `RuntimeConfig.symbolConfigs`. -/
def ConfigStore := List (String × SymbolConfig)

/-- Object-property lookup on the store. -/
def ConfigStore.get (cfgs : ConfigStore) (symbol : String) : Option SymbolConfig :=
  ((cfgs : List (String × SymbolConfig)).find? (fun e => e.1 = symbol)).map (fun e => e.2)

/-- Read one numeric field of a symbol config by parameter name. -/
def SymbolConfig.getParam (c : SymbolConfig) (param : String) : ℚ :=
  if param = "minVolumeUSD" then c.minVolumeUSD
  else if param = "minDominance" then c.minDominance
  else if param = "minPriceChange" then c.minPriceChange
  else c.cooldownMinutes

/-- Write one numeric field of a symbol config by parameter name. -/
def SymbolConfig.setParam (c : SymbolConfig) (param : String) (v : ℚ) : SymbolConfig :=
  if param = "minVolumeUSD" then { c with minVolumeUSD := v }
  else if param = "minDominance" then { c with minDominance := v }
  else if param = "minPriceChange" then { c with minPriceChange := v }
  else { c with cooldownMinutes := v }

/-- Replace the entry for `symbol` in the store. -/
def ConfigStore.update (cfgs : ConfigStore) (symbol : String) (c : SymbolConfig) :
    ConfigStore :=
  (cfgs : List (String × SymbolConfig)).map
    (fun e => if e.1 = symbol then (e.1, c) else e)

/-- `RuntimeConfig.set(symbol, param, value)`.  `value?` is the result of
`parseFloat` (`none` for a non-numeric input).  In the source all throws
happen before the single mutation, so the embedding returns the resulting
store (unchanged on error) together with either the `(oldValue, newValue)`
pair or the error message. -/
def RuntimeConfig.set (cfgs : ConfigStore) (symbol param : String)
    (value? : Option ℚ) : ConfigStore × Except String (ℚ × ℚ) :=
  match cfgs.get symbol with
  | none => (cfgs, .error ("Symbol " ++ symbol ++ " not found"))
  | some sc =>
    if param ∉ ["minVolumeUSD", "minDominance", "minPriceChange", "cooldownMinutes"] then
      (cfgs, .error ("Invalid parameter: " ++ param))
    else
      match value? with
      | none => (cfgs, .error "Invalid value (must be a number)")
      | some numValue =>
        if param = "minVolumeUSD" ∧ numValue < 0 then
          (cfgs, .error "minVolumeUSD must be >= 0")
        else if param = "minDominance" ∧ (numValue < 50 ∨ 100 < numValue) then
          (cfgs, .error "minDominance must be between 50 and 100")
        else if param = "minPriceChange" ∧ numValue < 0 then
          (cfgs, .error "minPriceChange must be >= 0")
        else if param = "cooldownMinutes" ∧ numValue < 0 then
          (cfgs, .error "cooldownMinutes must be >= 0")
        else
          let oldValue := sc.getParam param
          (cfgs.update symbol (sc.setParam param numValue), .ok (oldValue, numValue))

/-! ### Supporting lemmas about the Window Aggregator -/

theorem stepTrade_trades (s : SymbolState) (x : TradeInput) :
    (stepTrade s x).trades
      = (s.trades ++ [mkTrade x]).filter (fun t => x.ts - s.windowMs ≤ t.timestamp) := by
  unfold stepTrade SymbolState.addTrade SymbolState.cleanup mkTrade
  cases s.firstPrice <;> dsimp only <;> split <;> simp_all

theorem stepTrade_windowMs (s : SymbolState) (x : TradeInput) :
    (stepTrade s x).windowMs = s.windowMs := by
  unfold stepTrade SymbolState.addTrade SymbolState.cleanup
  cases s.firstPrice <;> dsimp only <;> split <;> rfl

theorem stepTrade_lastPrice (s : SymbolState) (x : TradeInput) :
    (stepTrade s x).lastPrice = some x.price := by
  unfold stepTrade SymbolState.addTrade SymbolState.cleanup
  cases s.firstPrice <;> dsimp only <;> split <;> rfl

theorem stepTrade_firstPrice (s : SymbolState) (x : TradeInput) :
    (stepTrade s x).firstPrice = ((stepTrade s x).trades.head?).map Trade.price := by
  unfold stepTrade SymbolState.addTrade SymbolState.cleanup
  cases s.firstPrice <;> dsimp only <;> split <;> simp_all

theorem process_concat (s : SymbolState) (L : List TradeInput) (x : TradeInput) :
    process s (L ++ [x]) = stepTrade (process s L) x := by
  simp [process, List.foldl_append]

theorem process_windowMs (s : SymbolState) (L : List TradeInput) :
    (process s L).windowMs = s.windowMs := by
  induction L using List.reverseRecOn with
  | nil => rfl
  | append_singleton L x ih => rw [process_concat, stepTrade_windowMs, ih]

/-- After a non-decreasing trade sequence ending in `i`, the surviving trade
set is exactly the trades with `timestamp ≥ i.ts - windowMs`: eviction is
keyed to the latest-seen trade timestamp. -/
theorem process_trades (w : ℚ) (hw : 0 ≤ w) (l : List TradeInput) (i : TradeInput)
    (hmono : (l ++ [i]).Pairwise (fun a b => a.ts ≤ b.ts)) :
    (process (SymbolState.init w) (l ++ [i])).trades
      = ((l ++ [i]).filter (fun x => i.ts - w ≤ x.ts)).map mkTrade := by
  induction l using List.reverseRecOn generalizing i with
  | nil =>
      rw [process_concat, stepTrade_trades]
      have hwin : (process (SymbolState.init w) []).windowMs = w := rfl
      have htr : (process (SymbolState.init w) []).trades = [] := rfl
      rw [hwin, htr]
      simp only [List.nil_append, List.filter_cons, List.filter_nil, List.map_cons,
        List.map_nil]
      have hi : i.ts - w ≤ (mkTrade i).timestamp := by
        show i.ts - w ≤ i.ts
        linarith
      have hi2 : i.ts - w ≤ i.ts := by linarith
      simp [mkTrade, hi2]
  | append_singleton l j ih =>
      have hsub : (l ++ [j]).Sublist ((l ++ [j]) ++ [i]) := List.sublist_append_left _ _
      have hmono2 : (l ++ [j]).Pairwise (fun a b => a.ts ≤ b.ts) :=
        hmono.sublist hsub
      have hji : j.ts ≤ i.ts := by
        have := (List.pairwise_append.mp hmono).2.2
        exact this j (by simp) i (by simp)
      rw [process_concat, stepTrade_trades, process_windowMs, ih j hmono2]
      show (((l ++ [j]).filter (fun x => j.ts - w ≤ x.ts)).map mkTrade
              ++ [mkTrade i]).filter
            (fun t => i.ts - (SymbolState.init w).windowMs ≤ t.timestamp)
          = (((l ++ [j]) ++ [i]).filter (fun x => i.ts - w ≤ x.ts)).map mkTrade
      have hwinit : (SymbolState.init w).windowMs = w := rfl
      rw [hwinit, List.filter_append, List.filter_map]
      have hcomp : ((fun t : Trade => decide (i.ts - w ≤ t.timestamp)) ∘ mkTrade)
          = fun x : TradeInput => decide (i.ts - w ≤ x.ts) := by
        funext x; rfl
      rw [hcomp, List.filter_filter]
      have hfc : ((l ++ [j]).filter
            (fun a => decide (i.ts - w ≤ a.ts) && decide (j.ts - w ≤ a.ts)))
          = (l ++ [j]).filter (fun a => decide (i.ts - w ≤ a.ts)) := by
        apply List.filter_congr
        intro x _
        by_cases h : i.ts - w ≤ x.ts
        · have h2 : j.ts - w ≤ x.ts := by linarith
          simp [h, h2]
        · simp [h]
      rw [hfc]
      have hi2 : i.ts - w ≤ i.ts := by linarith
      have h1 : List.filter (fun x : TradeInput => decide (i.ts - w ≤ x.ts))
            ((l ++ [j]) ++ [i])
          = List.filter (fun x : TradeInput => decide (i.ts - w ≤ x.ts)) (l ++ [j])
              ++ [i] := by
        rw [List.filter_append]
        simp [hi2, hw]
      rw [h1, List.map_append]
      simp [mkTrade, hi2, hw]

/-- Per trade, buy-side plus sell-side notional volume is price × quantity. -/
theorem sum_buy_sell (F : List TradeInput) :
    ((F.map mkTrade).map Trade.buyVol).sum + ((F.map mkTrade).map Trade.sellVol).sum
      = (F.map (fun x => x.price * x.qty)).sum := by
  induction F with
  | nil => simp
  | cons x F ih =>
      simp only [List.map_cons, List.sum_cons, List.map_map] at ih ⊢
      cases hm : x.m <;> simp [mkTrade, hm] <;> linarith

/-- Computation rule for `getStats` on a state with surviving trades and
nonzero total volume, spelling out every derived field. -/
theorem getStats_cons (wms : ℚ) (t0 : Trade) (rest : List Trade)
    (fp lp hp lo : Option ℚ)
    (hnz : ((t0 :: rest).map Trade.buyVol).sum + ((t0 :: rest).map Trade.sellVol).sum ≠ 0) :
    SymbolState.getStats ⟨wms, t0 :: rest, fp, lp, hp, lo⟩ = some
      { buyVolume := ((t0 :: rest).map Trade.buyVol).sum
        sellVolume := ((t0 :: rest).map Trade.sellVol).sum
        totalVolume := ((t0 :: rest).map Trade.buyVol).sum
          + ((t0 :: rest).map Trade.sellVol).sum
        dominantSide :=
          if ((t0 :: rest).map Trade.sellVol).sum < ((t0 :: rest).map Trade.buyVol).sum
          then "buy" else "sell"
        dominance := max
          (((t0 :: rest).map Trade.buyVol).sum
            / (((t0 :: rest).map Trade.buyVol).sum + ((t0 :: rest).map Trade.sellVol).sum) * 100)
          (((t0 :: rest).map Trade.sellVol).sum
            / (((t0 :: rest).map Trade.buyVol).sum + ((t0 :: rest).map Trade.sellVol).sum) * 100)
        priceChange :=
          match fp with
          | some fpv => if fpv ≠ 0 then ((lp.getD 0 - fpv) / fpv) * 100 else 0
          | none => 0
        priceRange :=
          match hp, lo with
          | some hpv, some lov => if hpv ≠ 0 ∧ lov ≠ 0 then hpv - lov else 0
          | _, _ => 0
        duration := ((rest.getLastD t0).timestamp - t0.timestamp) / 1000
        tradeCount := (t0 :: rest).length
        lastPrice := lp.getD 0 } := by
  unfold SymbolState.getStats
  dsimp only
  rw [if_neg hnz]

/-- Existence form of `getStats_cons`, exposing the derived fields. -/
theorem getStats_fields (wms : ℚ) (tr : List Trade) (fp lp hp lo : Option ℚ)
    (hne : tr ≠ [])
    (hnz : (tr.map Trade.buyVol).sum + (tr.map Trade.sellVol).sum ≠ 0) :
    ∃ st, SymbolState.getStats ⟨wms, tr, fp, lp, hp, lo⟩ = some st
      ∧ st.buyVolume = (tr.map Trade.buyVol).sum
      ∧ st.sellVolume = (tr.map Trade.sellVol).sum
      ∧ st.totalVolume = (tr.map Trade.buyVol).sum + (tr.map Trade.sellVol).sum
      ∧ st.dominantSide
          = (if (tr.map Trade.sellVol).sum < (tr.map Trade.buyVol).sum then "buy" else "sell")
      ∧ st.dominance = max
          ((tr.map Trade.buyVol).sum
            / ((tr.map Trade.buyVol).sum + (tr.map Trade.sellVol).sum) * 100)
          ((tr.map Trade.sellVol).sum
            / ((tr.map Trade.buyVol).sum + (tr.map Trade.sellVol).sum) * 100)
      ∧ st.priceChange = (match fp with
          | some fpv => if fpv ≠ 0 then ((lp.getD 0 - fpv) / fpv) * 100 else 0
          | none => 0)
      ∧ st.lastPrice = lp.getD 0 := by
  obtain ⟨t0, rest, rfl⟩ := List.exists_cons_of_ne_nil hne
  exact ⟨_, getStats_cons wms t0 rest fp lp hp lo hnz, rfl, rfl, rfl, rfl, rfl, rfl, rfl⟩

/-- C1: after any non-decreasing trade sequence with positive prices and
quantities, the surviving trade set is exactly the trades with
`timestamp ≥ latestTradeTimestamp - windowMs` (eviction keyed to the
latest-seen trade timestamp, not the wall clock), and the snapshot reports
`totalVolume` equal to the sum of price × quantity over exactly those
trades. -/
theorem c1_totalVolume_window (w : ℚ) (l : List TradeInput) (i : TradeInput)
    (hw : 0 ≤ w)
    (hmono : (l ++ [i]).Pairwise (fun a b => a.ts ≤ b.ts))
    (hpos : ∀ x ∈ l ++ [i], 0 < x.price ∧ 0 < x.qty) :
    (process (SymbolState.init w) (l ++ [i])).trades
        = ((l ++ [i]).filter (fun x => i.ts - w ≤ x.ts)).map mkTrade
    ∧ ∃ st, (process (SymbolState.init w) (l ++ [i])).getStats = some st
        ∧ st.totalVolume
            = (((l ++ [i]).filter (fun x => i.ts - w ≤ x.ts)).map
                (fun x => x.price * x.qty)).sum := by
  refine ⟨process_trades w hw l i hmono, ?_⟩
  set F := (l ++ [i]).filter (fun x => i.ts - w ≤ x.ts) with hFdef
  have htr : (process (SymbolState.init w) (l ++ [i])).trades = F.map mkTrade :=
    process_trades w hw l i hmono
  have hiF : i ∈ F := by
    rw [hFdef]
    refine List.mem_filter.mpr ⟨by simp, ?_⟩
    simp only [decide_eq_true_eq]
    linarith
  have hFne : F ≠ [] := fun h => by rw [h] at hiF; exact absurd hiF (List.not_mem_nil i)
  have hFpos : ∀ x ∈ F, 0 < x.price * x.qty := by
    intro x hx
    have hmem := List.mem_of_mem_filter hx
    exact mul_pos (hpos x hmem).1 (hpos x hmem).2
  have hsum_pos : 0 < (F.map (fun x => x.price * x.qty)).sum := by
    refine List.sum_pos _ ?_ ?_
    · intro y hy
      obtain ⟨x, hx, rfl⟩ := List.mem_map.mp hy
      exact hFpos x hx
    · simpa using hFne
  have hbs : ((F.map mkTrade).map Trade.buyVol).sum + ((F.map mkTrade).map Trade.sellVol).sum
      = (F.map (fun x => x.price * x.qty)).sum := sum_buy_sell F
  rcases hS : (process (SymbolState.init w) (l ++ [i])) with ⟨wm, tr, fp, lp, hp, lo⟩
  rw [hS] at htr
  dsimp only at htr
  subst htr
  obtain ⟨st, hst, -, -, htot, -, -, -, -⟩ := getStats_fields wm (F.map mkTrade) fp lp hp lo
    (fun h => hFne (List.map_eq_nil_iff.mp h)) (by rw [hbs]; exact ne_of_gt hsum_pos)
  exact ⟨st, hst, by rw [htot, hbs]⟩

/-- Witness for C1 at a concrete three-trade sequence (180 s window): the
first trade is evicted by the third trade timestamp and the total volume is
101·5 + 103·2 = 711. -/
theorem c1_totalVolume_window_witness :
    ∃ st, (process (SymbolState.init 180000)
        ([⟨0, 100, 10, false⟩, ⟨100000, 101, 5, true⟩] ++ [⟨200000, 103, 2, false⟩])).getStats
          = some st
      ∧ st.totalVolume = 711 := by
  obtain ⟨-, st, hst, htot⟩ := c1_totalVolume_window 180000
    [⟨0, 100, 10, false⟩, ⟨100000, 101, 5, true⟩] ⟨200000, 103, 2, false⟩
    (by norm_num) (by decide) (by decide)
  refine ⟨st, hst, ?_⟩
  rw [htot]
  norm_num [List.filter_cons, List.filter_nil, List.map_cons, List.map_nil,
    List.sum_cons, List.sum_nil]

theorem process_lastPrice (s : SymbolState) (L : List TradeInput) (x : TradeInput) :
    (process s (L ++ [x])).lastPrice = some x.price := by
  rw [process_concat]; exact stepTrade_lastPrice _ _

theorem process_firstPrice (s : SymbolState) (L : List TradeInput) (x : TradeInput) :
    (process s (L ++ [x])).firstPrice
      = ((process s (L ++ [x])).trades.head?).map Trade.price := by
  rw [process_concat]; exact stepTrade_firstPrice _ _

/-- C7: for every non-decreasing trade sequence with positive prices and
quantities, the snapshot priceChange is the signed percentage move
`(lastPrice - firstPrice)/firstPrice × 100` computed over the surviving
trades (`firstPrice` the oldest survivor, `lastPrice` the newest), and it is
negative whenever the last price is below the first. -/
theorem c7_priceChange_signed (w : ℚ) (l : List TradeInput) (i : TradeInput)
    (hw : 0 ≤ w)
    (hmono : (l ++ [i]).Pairwise (fun a b => a.ts ≤ b.ts))
    (hpos : ∀ x ∈ l ++ [i], 0 < x.price ∧ 0 < x.qty) :
    ∃ st h, (process (SymbolState.init w) (l ++ [i])).getStats = some st
      ∧ ((l ++ [i]).filter (fun x => i.ts - w ≤ x.ts)).head? = some h
      ∧ st.priceChange = ((i.price - h.price) / h.price) * 100
      ∧ (i.price < h.price → st.priceChange < 0) := by
  set F := (l ++ [i]).filter (fun x => i.ts - w ≤ x.ts) with hFdef
  have htr : (process (SymbolState.init w) (l ++ [i])).trades = F.map mkTrade :=
    process_trades w hw l i hmono
  have hlast : (process (SymbolState.init w) (l ++ [i])).lastPrice = some i.price :=
    process_lastPrice _ _ _
  have hfirst : (process (SymbolState.init w) (l ++ [i])).firstPrice
      = ((process (SymbolState.init w) (l ++ [i])).trades.head?).map Trade.price :=
    process_firstPrice _ _ _
  have hiF : i ∈ F := by
    rw [hFdef]
    refine List.mem_filter.mpr ⟨by simp, ?_⟩
    simp only [decide_eq_true_eq]
    linarith
  have hFne : F ≠ [] := fun h => by rw [h] at hiF; exact absurd hiF (List.not_mem_nil i)
  have hFpos : ∀ x ∈ F, 0 < x.price * x.qty := by
    intro x hx
    have hmem := List.mem_of_mem_filter hx
    exact mul_pos (hpos x hmem).1 (hpos x hmem).2
  have hsum_pos : 0 < (F.map (fun x => x.price * x.qty)).sum := by
    refine List.sum_pos _ ?_ ?_
    · intro y hy
      obtain ⟨x, hx, rfl⟩ := List.mem_map.mp hy
      exact hFpos x hx
    · simpa using hFne
  have hbs : ((F.map mkTrade).map Trade.buyVol).sum + ((F.map mkTrade).map Trade.sellVol).sum
      = (F.map (fun x => x.price * x.qty)).sum := sum_buy_sell F
  obtain ⟨f0, F', hFcons⟩ := List.exists_cons_of_ne_nil hFne
  have hf0F : f0 ∈ F := by rw [hFcons]; exact List.mem_cons_self _ _
  have hf0pos : 0 < f0.price := (hpos f0 (List.mem_of_mem_filter hf0F)).1
  rcases hS : (process (SymbolState.init w) (l ++ [i])) with ⟨wm, tr, fp, lp, hp, lo⟩
  rw [hS] at htr hlast hfirst
  dsimp only at htr hlast hfirst
  subst htr
  subst hlast
  rw [hFcons] at hfirst
  simp only [List.map_cons, List.head?_cons, Option.map_some] at hfirst
  subst hfirst
  obtain ⟨st, hst, -, -, -, -, -, hpc, -⟩ := getStats_fields wm (F.map mkTrade)
    (some (mkTrade f0).price) (some i.price) hp lo
    (fun h => hFne (List.map_eq_nil_iff.mp h)) (by rw [hbs]; exact ne_of_gt hsum_pos)
  have hmkp : (mkTrade f0).price = f0.price := rfl
  have hpc2 : st.priceChange = ((i.price - f0.price) / f0.price) * 100 := by
    rw [hpc]
    dsimp only
    rw [hmkp, if_pos (ne_of_gt hf0pos)]
    rfl
  refine ⟨st, f0, hst, by rw [hFcons]; rfl, hpc2, ?_⟩
  intro hlt
  rw [hpc2]
  have hnum : i.price - f0.price < 0 := by linarith
  have : (i.price - f0.price) / f0.price < 0 := div_neg_of_neg_of_pos hnum hf0pos
  have h100 : (0 : ℚ) < 100 := by norm_num
  exact mul_neg_of_neg_of_pos this h100

/-- Witness for C7: two trades, price moving 100 → 99, so the snapshot
price change is −1 %. -/
theorem c7_priceChange_signed_witness :
    ∃ st, (process (SymbolState.init 180000)
        ([⟨0, 100, 10, false⟩] ++ [⟨100000, 99, 5, true⟩])).getStats = some st
      ∧ st.priceChange = -1 := by
  obtain ⟨st, h, hst, hhead, hpc, -⟩ := c7_priceChange_signed 180000
    [⟨0, 100, 10, false⟩] ⟨100000, 99, 5, true⟩ (by norm_num) (by decide) (by decide)
  have hh : h = ⟨0, 100, 10, false⟩ := by
    simp only [List.cons_append, List.nil_append, List.filter_cons, List.filter_nil] at hhead
    norm_num at hhead
    exact hhead.symm
  refine ⟨st, hst, ?_⟩
  rw [hpc, hh]
  norm_num

/-- C6: whenever the snapshot is non-null its dominance lies in [50,100]
(for any state whose stored per-trade volumes are nonnegative, as built by
`addTrade` from positive prices and quantities), and a window with no
surviving trades or zero total volume yields null. -/
theorem c6_dominance_bounds (s : SymbolState)
    (hnn : ∀ t ∈ s.trades, 0 ≤ t.buyVol ∧ 0 ≤ t.sellVol) :
    (∀ st, s.getStats = some st → 50 ≤ st.dominance ∧ st.dominance ≤ 100)
    ∧ (s.trades = [] → s.getStats = none)
    ∧ ((s.trades.map Trade.buyVol).sum + (s.trades.map Trade.sellVol).sum = 0 →
        s.getStats = none) := by
  rcases s with ⟨wm, tr, fp, lp, hp, lo⟩
  dsimp only at hnn ⊢
  refine ⟨?_, ?_, ?_⟩
  · intro st hst
    cases tr with
    | nil => exact absurd hst (by simp [SymbolState.getStats])
    | cons t0 rest =>
      by_cases hnz : ((t0 :: rest).map Trade.buyVol).sum
          + ((t0 :: rest).map Trade.sellVol).sum = 0
      · have : SymbolState.getStats ⟨wm, t0 :: rest, fp, lp, hp, lo⟩ = none := by
          unfold SymbolState.getStats
          dsimp only
          rw [if_pos hnz]
        rw [this] at hst
        exact absurd hst (by simp)
      · obtain ⟨st2, hst2, -, -, -, -, hdom, -, -⟩ :=
          getStats_fields wm (t0 :: rest) fp lp hp lo (by simp) hnz
        rw [hst2] at hst
        have hst3 : st2 = st := Option.some.inj hst
        subst hst3
        set B := ((t0 :: rest).map Trade.buyVol).sum with hB
        set S := ((t0 :: rest).map Trade.sellVol).sum with hSdef
        have hBnn : 0 ≤ B := by
          refine List.sum_nonneg ?_
          intro y hy
          obtain ⟨x, hx, rfl⟩ := List.mem_map.mp hy
          exact (hnn x hx).1
        have hSnn : 0 ≤ S := by
          refine List.sum_nonneg ?_
          intro y hy
          obtain ⟨x, hx, rfl⟩ := List.mem_map.mp hy
          exact (hnn x hx).2
        have hT : 0 < B + S := lt_of_le_of_ne (add_nonneg hBnn hSnn) (Ne.symm hnz)
        have hTne : B + S ≠ 0 := ne_of_gt hT
        have hsum100 : B / (B + S) * 100 + S / (B + S) * 100 = 100 := by
          field_simp
          ring
        have hbd100 : B / (B + S) * 100 ≤ 100 := by
          have h1 : B / (B + S) ≤ 1 := (div_le_one hT).mpr (by linarith)
          nlinarith
        have hsd100 : S / (B + S) * 100 ≤ 100 := by
          have h1 : S / (B + S) ≤ 1 := (div_le_one hT).mpr (by linarith)
          nlinarith
        constructor
        · rw [hdom]
          by_contra hcon
          push_neg at hcon
          have h1 : B / (B + S) * 100 < 50 := lt_of_le_of_lt (le_max_left _ _) hcon
          have h2 : S / (B + S) * 100 < 50 := lt_of_le_of_lt (le_max_right _ _) hcon
          linarith
        · rw [hdom]
          exact max_le hbd100 hsd100
  · intro h
    subst h
    rfl
  · intro h0
    cases tr with
    | nil => rfl
    | cons t0 rest =>
      unfold SymbolState.getStats
      dsimp only
      rw [if_pos h0]

/-- Witness for C6 at a one-trade all-buy state: the snapshot exists and its
dominance (here 100) lies within [50,100]. -/
theorem c6_dominance_bounds_witness :
    ∃ st, SymbolState.getStats
        ⟨180000, [⟨0, 100, 500, 0⟩], some 100, some 100, some 100, some 100⟩ = some st
      ∧ 50 ≤ st.dominance ∧ st.dominance ≤ 100 := by
  have hst := getStats_cons 180000 ⟨0, 100, 500, 0⟩ [] (some 100) (some 100)
    (some 100) (some 100) (by norm_num)
  have hb := (c6_dominance_bounds
    ⟨180000, [⟨0, 100, 500, 0⟩], some 100, some 100, some 100, some 100⟩
    (by intro t ht; simp at ht; subst ht; constructor <;> norm_num)).1
  exact ⟨_, hst, hb _ hst⟩

/-- C10: when the surviving buy and sell volumes are equal (and positive),
the snapshot deterministically reports dominant side "sell" and a dominance
of exactly 50. -/
theorem c10_tie_break_sell (s : SymbolState)
    (hne : s.trades ≠ [])
    (heq : (s.trades.map Trade.buyVol).sum = (s.trades.map Trade.sellVol).sum)
    (hpos : 0 < (s.trades.map Trade.buyVol).sum) :
    ∃ st, s.getStats = some st ∧ st.dominantSide = "sell" ∧ st.dominance = 50 := by
  rcases s with ⟨wm, tr, fp, lp, hp, lo⟩
  dsimp only at hne heq hpos ⊢
  have hnz : (tr.map Trade.buyVol).sum + (tr.map Trade.sellVol).sum ≠ 0 := by
    rw [← heq]
    have : 0 < (tr.map Trade.buyVol).sum + (tr.map Trade.buyVol).sum := by linarith
    exact ne_of_gt this
  obtain ⟨st, hst, -, -, -, hside, hdom, -, -⟩ := getStats_fields wm tr fp lp hp lo hne hnz
  refine ⟨st, hst, ?_, ?_⟩
  · rw [hside, if_neg]
    rw [heq]
    exact lt_irrefl _
  · rw [hdom, ← heq]
    set B := (tr.map Trade.buyVol).sum with hB
    have hB0 : B ≠ 0 := ne_of_gt hpos
    have hhalf : B / (B + B) * 100 = 50 := by
      rw [show B + B = 2 * B by ring]
      rw [div_mul_eq_mul_div]
      rw [show (2 : ℚ) * B = B * 2 by ring]
      rw [mul_div_mul_left _ _ hB0]
      norm_num
    rw [hhalf, max_self]

/-- Witness for C10: two trades with equal buy and sell notional volume
(300 each): dominant side "sell", dominance exactly 50. -/
theorem c10_tie_break_sell_witness :
    ∃ st, SymbolState.getStats
        ⟨180000, [⟨0, 100, 300, 0⟩, ⟨1, 100, 0, 300⟩], some 100, some 100, some 100, some 100⟩
        = some st
      ∧ st.dominantSide = "sell" ∧ st.dominance = 50 :=
  c10_tie_break_sell
    ⟨180000, [⟨0, 100, 300, 0⟩, ⟨1, 100, 0, 300⟩], some 100, some 100, some 100, some 100⟩
    (by decide)
    (by norm_num [List.map_cons, List.sum_cons])
    (by norm_num [List.map_cons, List.sum_cons])

/-- History entries created through `recordAggression` are positive, so the
average historical aggression of any reachable nonempty history is
positive: this justifies the positivity hypothesis of the decay-filter
claim. -/
theorem recordAggression_pos (cfg : AggressionDecayConfig)
    (history : List AggressionEntry) (timestamp buyVolume sellVolume priceRange : ℚ)
    (hbuy : 0 ≤ buyVolume) (hsell : 0 ≤ sellVolume)
    (hhist : ∀ e ∈ history, 0 < e.normalizedAggression) :
    ∀ e ∈ AggressionDecayFilter.recordAggression cfg history timestamp
        buyVolume sellVolume priceRange,
      0 < e.normalizedAggression := by
  intro e he
  unfold AggressionDecayFilter.recordAggression at he
  by_cases h0 : buyVolume + sellVolume = 0
  · rw [if_pos h0] at he
    exact hhist e he
  · rw [if_neg h0] at he
    have hdom : 0 < max buyVolume sellVolume := by
      rcases lt_or_le 0 buyVolume with h | h
      · exact lt_of_lt_of_le h (le_max_left _ _)
      · have hb0 : buyVolume = 0 := le_antisymm h hbuy
        have hs : 0 < sellVolume := by
          rcases lt_or_le 0 sellVolume with h2 | h2
          · exact h2
          · exact absurd (by rw [hb0]; linarith : buyVolume + sellVolume = 0) h0
        exact lt_of_lt_of_le hs (le_max_right _ _)
    have he2 := List.mem_of_mem_filter he
    rcases List.mem_append.mp he2 with hmem | hmem
    · exact hhist e hmem
    · have he3 : e = ⟨timestamp,
          if 0 < priceRange then max buyVolume sellVolume / priceRange
          else max buyVolume sellVolume⟩ := by
        simpa using hmem
      subst he3
      dsimp only
      split
      · exact div_pos hdom (by assumption)
      · exact hdom

/-- C3: with the filter enabled and at least `minCandles` history entries,
`shouldAllowEntry` allows the entry if and only if the current normalized
aggression (dominant-side volume ÷ price range, raw dominant volume when the
range is not positive) divided by the average historical aggression is below
the decay threshold — provided the evaluated window has positive volume (as
every non-null snapshot does) and the recorded history has positive average;
with fewer than `minCandles` entries the filter always passes. -/
theorem c3_decay_filter (cfg : AggressionDecayConfig)
    (history : List AggressionEntry) (buy sell range : ℚ)
    (hen : cfg.enabled = true)
    (hlen : cfg.minCandles ≤ (history.length : ℚ))
    (hvol : 0 < buy + sell)
    (havg : 0 < (history.map AggressionEntry.normalizedAggression).sum / history.length) :
    ((AggressionDecayFilter.shouldAllowEntry cfg (some history) buy sell range).allowed = true
      ↔ (if 0 < range then max buy sell / range else max buy sell)
          / ((history.map AggressionEntry.normalizedAggression).sum / history.length)
          < cfg.decayThreshold)
    ∧ ∀ (h2 : List AggressionEntry) (b2 s2 r2 : ℚ), (h2.length : ℚ) < cfg.minCandles →
        (AggressionDecayFilter.shouldAllowEntry cfg (some h2) b2 s2 r2).allowed = true := by
  constructor
  · unfold AggressionDecayFilter.shouldAllowEntry
    rw [if_neg (by simp [hen])]
    dsimp only [Option.getD]
    rw [if_neg (not_lt.mpr hlen)]
    rw [if_neg (ne_of_gt hvol)]
    rw [if_pos havg]
    split
    · split
      · rename_i h
        exact ⟨fun _ => h, fun _ => rfl⟩
      · rename_i h
        refine ⟨fun hcl => ?_, fun hc => absurd hc h⟩
        simp at hcl
    · split
      · rename_i h
        exact ⟨fun _ => h, fun _ => rfl⟩
      · rename_i h
        refine ⟨fun hcl => ?_, fun hc => absurd hc h⟩
        simp at hcl
  · intro h2 b2 s2 r2 hshort
    unfold AggressionDecayFilter.shouldAllowEntry
    by_cases he : cfg.enabled
    · rw [if_neg (by simp [he])]
      dsimp only [Option.getD]
      rw [if_pos hshort]
    · rw [if_pos (by simp [he])]

/-- Witness for C3: enabled filter, threshold 0.85, two history entries
averaging 5, current aggression 2 (ratio 0.4 < 0.85 ⇒ allowed). -/
theorem c3_decay_filter_witness :
    (AggressionDecayFilter.shouldAllowEntry ⟨true, 3, 85/100, 2⟩
        (some [⟨0, 4⟩, ⟨0, 6⟩]) 2 1 1).allowed = true :=
  ((c3_decay_filter ⟨true, 3, 85/100, 2⟩ [⟨0, 4⟩, ⟨0, 6⟩] 2 1 1
      rfl (by norm_num) (by norm_num)
      (by norm_num [List.map_cons, List.sum_cons])).1).mpr
    (by norm_num [List.map_cons, List.sum_cons])

/-- C4: after `recordAlert(S, side)` at time `T`, the cooldown check is
ineligible at every `t ∈ [T, T + cooldownMinutes·60000)` and eligible at or
after `T + cooldownMinutes·60000`, where `cooldownMinutes` is whatever the
live configuration holds at check time (`canAlert` reads the config then, so
a configuration change applies retroactively to an in-progress cooldown). -/
theorem c4_cooldown_refractory (config : SymbolConfig)
    (lastAlerts : List (String × ℚ)) (S side : String) (T t : ℚ) :
    (T ≤ t → t < T + config.cooldownMinutes * 60 * 1000 →
      CooldownManager.canAlert (some config)
        (CooldownManager.recordAlert lastAlerts S side T) S side t = false)
    ∧ (T + config.cooldownMinutes * 60 * 1000 ≤ t →
      CooldownManager.canAlert (some config)
        (CooldownManager.recordAlert lastAlerts S side T) S side t = true) := by
  have hlook : lookupKey (CooldownManager.recordAlert lastAlerts S side T)
      (S ++ "_" ++ side) = some T := by
    unfold CooldownManager.recordAlert lookupKey
    rw [List.find?_cons_of_pos _ (by simp)]
    rfl
  constructor
  · intro h1 h2
    unfold CooldownManager.canAlert
    rw [hlook]
    simp only [decide_eq_false_iff_not, not_le]
    linarith
  · intro h1
    unfold CooldownManager.canAlert
    rw [hlook]
    simp only [decide_eq_true_eq]
    linarith

/-- Witness for C4 with the default 5-minute cooldown: ineligible one
millisecond before the deadline, eligible exactly at it. -/
theorem c4_cooldown_refractory_witness :
    CooldownManager.canAlert (some ⟨1000000, 65, 6/10, 5, true⟩)
        (CooldownManager.recordAlert [] "ADAUSDT" "buy" 1000) "ADAUSDT" "buy" 300999
      = false
    ∧ CooldownManager.canAlert (some ⟨1000000, 65, 6/10, 5, true⟩)
        (CooldownManager.recordAlert [] "ADAUSDT" "buy" 1000) "ADAUSDT" "buy" 301000
      = true :=
  ⟨(c4_cooldown_refractory ⟨1000000, 65, 6/10, 5, true⟩ [] "ADAUSDT" "buy" 1000 300999).1
      (by norm_num) (by norm_num),
   (c4_cooldown_refractory ⟨1000000, 65, 6/10, 5, true⟩ [] "ADAUSDT" "buy" 1000 301000).2
      (by norm_num)⟩

set_option maxHeartbeats 1600000 in
/-- Decomposition of `shouldAlert`: the cheap per-instrument threshold
section decides first, and otherwise the decision is the short-circuit
composition, in order, of aggression-decay, stop-cluster, time-based and
BTC-volatility results. -/
theorem shouldAlert_eq_gate_chain (config? : Option SymbolConfig) (stats? : Option Stats)
    (adCfg : AggressionDecayConfig) (adH : Option (List AggressionEntry))
    (scCfg : StopClusterConfig) (scSt : StopClusterState)
    (tbCfg : TimeBasedConfig) (day hour : Nat)
    (btcCfg : BTCVolConfig) (btcSt : BTCVolState) (now : ℚ) :
    SignalEngine.shouldAlert config? stats? adCfg adH scCfg scSt tbCfg day hour
        btcCfg btcSt now
      = match cheapGate config? stats? with
        | .error d => d
        | .ok stats =>
            firstDenial
              [⟨(AggressionDecayFilter.shouldAllowEntry adCfg adH
                    stats.buyVolume stats.sellVolume stats.priceRange).allowed,
                "Aggression: " ++ (AggressionDecayFilter.shouldAllowEntry adCfg adH
                    stats.buyVolume stats.sellVolume stats.priceRange).reason⟩,
               StopClusterProtection.isTradingAllowed scCfg scSt now,
               TimeBasedFilter.isTradingAllowed tbCfg day hour,
               BTCVolatilityFilter.isTradingAllowed btcCfg btcSt now] := by
  cases stats? with
  | none => rfl
  | some stats =>
    cases config? with
    | none => rfl
    | some config =>
      unfold SignalEngine.shouldAlert cheapGate
      dsimp only
      simp only [firstDenial]
      split_ifs <;> simp_all [firstDenial]

/-- C2: every evaluation of the Signal Engine checks the cheap
per-instrument thresholds first, then evaluates the four stateful filters in
the fixed order aggression-decay → stop-cluster → time-based → volatility
kill-switch, short-circuiting on the first denial; being a total function
into a single `Decision`, it always returns exactly one allow/deny with
exactly one reason. -/
theorem c2_engine_composition (config? : Option SymbolConfig) (stats? : Option Stats)
    (adCfg : AggressionDecayConfig) (adH : Option (List AggressionEntry))
    (scCfg : StopClusterConfig) (scSt : StopClusterState)
    (tbCfg : TimeBasedConfig) (day hour : Nat)
    (btcCfg : BTCVolConfig) (btcSt : BTCVolState) (now : ℚ) :
    SignalEngine.shouldAlert config? stats? adCfg adH scCfg scSt tbCfg day hour
        btcCfg btcSt now
      = match cheapGate config? stats? with
        | .error d => d
        | .ok stats =>
            firstDenial
              [⟨(AggressionDecayFilter.shouldAllowEntry adCfg adH
                    stats.buyVolume stats.sellVolume stats.priceRange).allowed,
                "Aggression: " ++ (AggressionDecayFilter.shouldAllowEntry adCfg adH
                    stats.buyVolume stats.sellVolume stats.priceRange).reason⟩,
               StopClusterProtection.isTradingAllowed scCfg scSt now,
               TimeBasedFilter.isTradingAllowed tbCfg day hour,
               BTCVolatilityFilter.isTradingAllowed btcCfg btcSt now] :=
  shouldAlert_eq_gate_chain config? stats? adCfg adH scCfg scSt tbCfg day hour
    btcCfg btcSt now

/-- Under a side/sign mismatch the cheap threshold gate already denies. -/
theorem cheapGate_mismatch (config : SymbolConfig) (stats : Stats)
    (hmis : (stats.dominantSide = "buy" ∧ stats.priceChange < 0)
          ∨ (stats.dominantSide = "sell" ∧ 0 < stats.priceChange)) :
    ∃ d, cheapGate (some config) (some stats) = Except.error d ∧ d.allow = false := by
  unfold cheapGate
  dsimp only
  split_ifs <;>
    first
      | exact ⟨_, rfl, rfl⟩
      | (rcases hmis with h | h <;> simp_all)

/-- C8: every snapshot whose dominant side disagrees with the sign of its
price change (buy-dominant with falling price, or sell-dominant with rising
price) is denied, and the decision is reached before the filter stack is
consulted: the result is identical for arbitrary filter configurations,
filter states and clocks. -/
theorem c8_sign_mismatch_denied (config : SymbolConfig) (stats : Stats)
    (adCfg adCfg2 : AggressionDecayConfig) (adH adH2 : Option (List AggressionEntry))
    (scCfg scCfg2 : StopClusterConfig) (scSt scSt2 : StopClusterState)
    (tbCfg tbCfg2 : TimeBasedConfig) (day day2 hour hour2 : Nat)
    (btcCfg btcCfg2 : BTCVolConfig) (btcSt btcSt2 : BTCVolState) (now now2 : ℚ)
    (hmis : (stats.dominantSide = "buy" ∧ stats.priceChange < 0)
          ∨ (stats.dominantSide = "sell" ∧ 0 < stats.priceChange)) :
    (SignalEngine.shouldAlert (some config) (some stats) adCfg adH scCfg scSt
        tbCfg day hour btcCfg btcSt now).allow = false
    ∧ SignalEngine.shouldAlert (some config) (some stats) adCfg adH scCfg scSt
        tbCfg day hour btcCfg btcSt now
      = SignalEngine.shouldAlert (some config) (some stats) adCfg2 adH2 scCfg2 scSt2
          tbCfg2 day2 hour2 btcCfg2 btcSt2 now2 := by
  obtain ⟨d, hd, hdf⟩ := cheapGate_mismatch config stats hmis
  constructor
  · rw [shouldAlert_eq_gate_chain, hd]
    exact hdf
  · rw [shouldAlert_eq_gate_chain, shouldAlert_eq_gate_chain, hd]

/-- Witness for C8: a buy-dominant snapshot with falling price is denied
(under one arbitrary pair of filter environments). -/
theorem c8_sign_mismatch_denied_witness :
    (SignalEngine.shouldAlert (some ⟨0, 50, 0, 5, true⟩)
        (some ⟨800, 200, 1000, "buy", 80, -2, 1, 10, 2, 99⟩)
        ⟨true, 3, 85/100, 2⟩ none ⟨true, 2, 30, 30⟩ ⟨[], 0⟩
        ⟨true, [], [], 6, 18⟩ 2 12 ⟨true, 1, 10, 2, 15⟩ BTCVolState.init 0).allow
      = false :=
  (c8_sign_mismatch_denied ⟨0, 50, 0, 5, true⟩ ⟨800, 200, 1000, "buy", 80, -2, 1, 10, 2, 99⟩
    ⟨true, 3, 85/100, 2⟩ ⟨true, 3, 85/100, 2⟩ none none
    ⟨true, 2, 30, 30⟩ ⟨true, 2, 30, 30⟩ ⟨[], 0⟩ ⟨[], 0⟩
    ⟨true, [], [], 6, 18⟩ ⟨true, [], [], 6, 18⟩ 2 2 12 12
    ⟨true, 1, 10, 2, 15⟩ ⟨true, 1, 10, 2, 15⟩ BTCVolState.init BTCVolState.init 0 0
    (Or.inl ⟨rfl, by norm_num⟩)).1

/-- C9: `RuntimeConfig.set` validates its input and either returns the
`(oldValue, newValue)` pair on success or fails with an error naming the
invalid field, leaving the configuration store unchanged; in particular a
`minDominance` outside [50,100], a negative value for the other numeric
parameters, or a non-numeric value all fail without mutating the store. -/
theorem c9_config_setter (cfgs : ConfigStore) (symbol : String) (sc : SymbolConfig)
    (v : ℚ) (hfound : cfgs.get symbol = some sc) :
    ((v < 50 ∨ 100 < v) → RuntimeConfig.set cfgs symbol "minDominance" (some v)
        = (cfgs, Except.error "minDominance must be between 50 and 100"))
    ∧ (v < 0 → RuntimeConfig.set cfgs symbol "minVolumeUSD" (some v)
        = (cfgs, Except.error "minVolumeUSD must be >= 0"))
    ∧ (v < 0 → RuntimeConfig.set cfgs symbol "minPriceChange" (some v)
        = (cfgs, Except.error "minPriceChange must be >= 0"))
    ∧ (v < 0 → RuntimeConfig.set cfgs symbol "cooldownMinutes" (some v)
        = (cfgs, Except.error "cooldownMinutes must be >= 0"))
    ∧ (∀ param, param ∈ ["minVolumeUSD", "minDominance", "minPriceChange", "cooldownMinutes"] →
        RuntimeConfig.set cfgs symbol param none
          = (cfgs, Except.error "Invalid value (must be a number)"))
    ∧ (50 ≤ v → v ≤ 100 → RuntimeConfig.set cfgs symbol "minDominance" (some v)
        = (cfgs.update symbol (sc.setParam "minDominance" v),
           Except.ok (sc.minDominance, v))) := by
  refine ⟨?_, ?_, ?_, ?_, ?_, ?_⟩
  · intro hv
    simp only [RuntimeConfig.set, hfound]
    simp [hv]
  · intro hv
    simp only [RuntimeConfig.set, hfound]
    simp [hv]
  · intro hv
    simp only [RuntimeConfig.set, hfound]
    simp [hv, not_lt.mpr (le_of_lt (lt_of_lt_of_le hv (by norm_num : (0:ℚ) ≤ 50)))]
  · intro hv
    simp only [RuntimeConfig.set, hfound]
    simp [hv, not_lt.mpr (le_of_lt (lt_of_lt_of_le hv (by norm_num : (0:ℚ) ≤ 50)))]
  · intro param hparam
    fin_cases hparam <;> simp [RuntimeConfig.set, hfound]
  · intro h50 h100
    have hn1 : ¬v < 50 := not_lt.mpr h50
    have hn2 : ¬100 < v := not_lt.mpr h100
    have hn3 : ¬v < 0 := not_lt.mpr (le_trans (by norm_num) h50)
    simp only [RuntimeConfig.set, hfound]
    simp [hn1, hn2, hn3, SymbolConfig.getParam]

/-- Witness for C9 on a one-symbol store: an out-of-range `minDominance`
and a non-numeric value are rejected with the store unchanged, and an
in-range update returns the (old, new) pair. -/
theorem c9_config_setter_witness :
    RuntimeConfig.set [("ADAUSDT", ⟨1000000, 65, 1, 5, true⟩)]
        "ADAUSDT" "minDominance" (some 120)
      = ([("ADAUSDT", ⟨1000000, 65, 1, 5, true⟩)],
         Except.error "minDominance must be between 50 and 100")
    ∧ RuntimeConfig.set [("ADAUSDT", ⟨1000000, 65, 1, 5, true⟩)]
        "ADAUSDT" "minDominance" none
      = ([("ADAUSDT", ⟨1000000, 65, 1, 5, true⟩)],
         Except.error "Invalid value (must be a number)")
    ∧ RuntimeConfig.set [("ADAUSDT", ⟨1000000, 65, 1, 5, true⟩)]
        "ADAUSDT" "minDominance" (some 70)
      = (ConfigStore.update [("ADAUSDT", ⟨1000000, 65, 1, 5, true⟩)] "ADAUSDT"
           (SymbolConfig.setParam ⟨1000000, 65, 1, 5, true⟩ "minDominance" 70),
         Except.ok (65, 70)) := by
  have h := c9_config_setter [("ADAUSDT", ⟨1000000, 65, 1, 5, true⟩)]
    "ADAUSDT" ⟨1000000, 65, 1, 5, true⟩ 120 rfl
  have h2 := c9_config_setter [("ADAUSDT", ⟨1000000, 65, 1, 5, true⟩)]
    "ADAUSDT" ⟨1000000, 65, 1, 5, true⟩ 70 rfl
  exact ⟨h.1 (Or.inr (by norm_num)),
         h.2.2.2.2.1 "minDominance" (by simp),
         h2.2.2.2.2.2 (by norm_num) (by norm_num)⟩

/-- Demo configuration for the kill-switch: threshold 2.0 % over a
10-minute trailing timeframe, 15-minute pause. -/
def btcCfgDemo : BTCVolConfig := ⟨true, 5, 10, 2, 15⟩

/-- Poll trace: reference prices 100, 100, 103 five minutes apart (the
spec example), then 103 while paused, then 100 exactly at pause expiry. -/
def btcPoll1 : BTCVolState × Bool :=
  BTCVolatilityFilter.checkBTC btcCfgDemo BTCVolState.init 0 100

def btcPoll2 : BTCVolState × Bool :=
  BTCVolatilityFilter.checkBTC btcCfgDemo btcPoll1.1 300000 100

def btcPoll3 : BTCVolState × Bool :=
  BTCVolatilityFilter.checkBTC btcCfgDemo btcPoll2.1 600000 103

def btcPoll4 : BTCVolState × Bool :=
  BTCVolatilityFilter.checkBTC btcCfgDemo btcPoll3.1 900000 103

def btcPoll5 : BTCVolState × Bool :=
  BTCVolatilityFilter.checkBTC btcCfgDemo btcPoll4.1 1500000 100

/-- C5: the kill-switch computes the percentage move between the oldest and
newest samples of the trailing timeframe — price history [100, 100, 103]
with threshold 2.0 % breaches (3 % ≥ 2 %), sets the pause-until timestamp
and emits exactly one notification; it never notifies on a poll taken while
the pause is still active (generally: a poll with `now < pausedUntil` cannot
alert, and an alert implies the pause had expired and the threshold was
breached anew), and it re-arms once the pause expires and a new breach
occurs. -/
theorem c5_volatility_kill_switch :
    (btcPoll3.2 = true
      ∧ btcPoll3.1.pausedUntil = 1500000
      ∧ btcPoll3.1.btcAlerts = 1
      ∧ (BTCVolatilityFilter.isTradingAllowed btcCfgDemo btcPoll3.1 700000).allowed = false
      ∧ btcPoll4.2 = false
      ∧ btcPoll4.1.btcAlerts = 1
      ∧ btcPoll4.1.pausedUntil = 1500000
      ∧ btcPoll5.2 = true
      ∧ btcPoll5.1.btcAlerts = 2)
    ∧ (∀ (cfg : BTCVolConfig) (st : BTCVolState) (now price : ℚ),
        now < st.pausedUntil →
          (BTCVolatilityFilter.checkBTC cfg st now price).2 = false)
    ∧ (∀ (cfg : BTCVolConfig) (st : BTCVolState) (now price : ℚ),
        (BTCVolatilityFilter.checkBTC cfg st now price).2 = true →
          st.pausedUntil ≤ now ∧ cfg.enabled = true) := by
  have h1 : btcPoll1 = (⟨[(0, 100)], 0, some 100, 0, 0⟩, false) := by
    unfold btcPoll1 BTCVolatilityFilter.checkBTC btcCfgDemo BTCVolState.init
    norm_num
  have h2 : btcPoll2 = (⟨[(0, 100), (300000, 100)], 0, some 100, 0, 0⟩, false) := by
    unfold btcPoll2
    rw [h1]
    unfold BTCVolatilityFilter.checkBTC btcCfgDemo
    norm_num
  have h3 : btcPoll3
      = (⟨[(0, 100), (300000, 100), (600000, 103)], 1500000, some 103, 600000, 1⟩, true) := by
    unfold btcPoll3
    rw [h2]
    unfold BTCVolatilityFilter.checkBTC btcCfgDemo
    norm_num
  have h4 : btcPoll4
      = (⟨[(300000, 100), (600000, 103), (900000, 103)], 1500000, some 103, 600000, 1⟩,
         false) := by
    unfold btcPoll4
    rw [h3]
    unfold BTCVolatilityFilter.checkBTC btcCfgDemo
    norm_num
  have h5 : btcPoll5
      = (⟨[(900000, 103), (1500000, 100)], 2400000, some 100, 1500000, 2⟩, true) := by
    unfold btcPoll5
    rw [h4]
    unfold BTCVolatilityFilter.checkBTC btcCfgDemo
    norm_num
    rw [abs_of_nonneg (by norm_num : (0 : ℚ) ≤ 300 / 103)]
    norm_num
  refine ⟨⟨?_, ?_, ?_, ?_, ?_, ?_, ?_, ?_, ?_⟩, ?_, ?_⟩
  · rw [h3]
  · rw [h3]
  · rw [h3]
  · rw [h3]
    unfold BTCVolatilityFilter.isTradingAllowed btcCfgDemo
    norm_num
  · rw [h4]
  · rw [h4]
  · rw [h4]
  · rw [h5]
  · rw [h5]
  · intro cfg st now price h
    unfold BTCVolatilityFilter.checkBTC
    by_cases he : cfg.enabled = true
    · rw [if_neg (by simp [he])]
      dsimp only
      split
      · rfl
      · split_ifs with hlen hcond
        · exact absurd hcond.2 (not_le.mpr h)
        · rfl
        · rfl
    · rw [if_pos (by simp [he])]
  · intro cfg st now price h
    unfold BTCVolatilityFilter.checkBTC at h
    by_cases he : cfg.enabled = true
    · rw [if_neg (by simp [he])] at h
      dsimp only at h
      refine ⟨?_, he⟩
      split at h
      · exact absurd h (by simp)
      · split_ifs at h with hlen hcond
        exact hcond.2
    · rw [if_pos (by simp [he])] at h
      exact absurd h (by simp)

/-- Witness for C5: instantiating the no-re-notify part of the theorem at a
concretely paused state shows the poll emits no notification. -/
theorem c5_volatility_kill_switch_witness :
    (500000 : ℚ) < (1500000 : ℚ)
    ∧ (BTCVolatilityFilter.checkBTC btcCfgDemo
        ⟨[(0, 100)], 1500000, some 100, 0, 1⟩ 500000 110).2 = false :=
  ⟨by norm_num,
   c5_volatility_kill_switch.2.1 btcCfgDemo ⟨[(0, 100)], 1500000, some 100, 0, 1⟩
     500000 110 (by norm_num)⟩

end FlowMonitor
